import Mathlib

namespace Strava

/-! ## Timestamps (aware datetimes) -/

/-- An aware datetime: wall-clock seconds plus the UTC offset (seconds)
carried by its `tzinfo`.  The absolute instant is `wall - offset`. -/
structure Timestamp where
  wall   : Int
  offset : Int
  deriving DecidableEq, Repr

/-- The absolute instant denoted by an aware datetime. -/
def Timestamp.instant (t : Timestamp) : Int := t.wall - t.offset

/-- `datetime.astimezone(zone)`: same instant re-expressed in `zone`,
where `zone` maps an absolute instant to the zone's UTC offset there. -/
def Timestamp.astimezone (t : Timestamp) (zone : Int → Int) : Timestamp :=
  { wall := t.instant + zone t.instant, offset := zone t.instant }

/-! ## Activity records -/

/-- `activity["athlete"]` sub-record; each field is `none` when the key is
absent. -/
structure Athlete where
  athId     : Option Nat
  firstname : Option String
  lastname  : Option String
  deriving DecidableEq, Repr

/-- An activity record as read by the code.  Only the fields the programs
access are modelled. -/
structure Activity where
  actId            : Option Nat
  type             : Option String
  name             : Option String
  start_date_local : Option Timestamp
  athlete          : Option Athlete
  distance         : Option ℚ
  moving_time      : Option Nat
  elapsed_time     : Option Nat
  deriving DecidableEq, Repr

/-! ## Unit and time formatters -/

/-- `meters_to_miles` from `leaderboard.py`: multiply by the literal factor
`0.000621371`. -/
def meters_to_miles (m : ℚ) : ℚ := m * (621371 / 1000000000)

/-- Decimal digits of `n`, least significant first (`[]` for `0`). -/
def digitsRev (n : Nat) : List Nat :=
  if h : n = 0 then [] else n % 10 :: digitsRev (n / 10)
decreasing_by exact Nat.div_lt_self (Nat.pos_of_ne_zero h) (by norm_num)

/-- The character for a single decimal digit. -/
def digitChar (d : Nat) : Char := Char.ofNat (48 + d)

/-- Python `str(n)` for a natural number `n`. -/
def natStr (n : Nat) : String :=
  if n = 0 then "0" else ⟨(digitsRev n).reverse.map digitChar⟩

/-- Python `f"{n:02d}"`: zero-pad to width 2 (wider numbers unchanged). -/
def pad2 (n : Nat) : String :=
  if n < 10 then "0" ++ natStr n else natStr n

/-- `format_hhmmss` from `leaderboard.py`:
`h, rem = divmod(sec, 3600); m, s = divmod(rem, 60)` rendered as
`f"{h:02d}:{m:02d}:{s:02d}"`.  The hour field is the full hour count. -/
def format_hhmmss (sec : Nat) : String :=
  pad2 (sec / 3600) ++ ":" ++ pad2 (sec % 3600 / 60) ++ ":" ++ pad2 (sec % 3600 % 60)

/-- `time.strftime("%H:%M:%S", time.gmtime(sec))` from `app.py`:
`gmtime` exposes `tm_hour = sec / 3600 % 24`, so the hour field wraps
modulo 24. -/
def appTimeFormat (sec : Nat) : String :=
  pad2 (sec / 3600 % 24) ++ ":" ++ pad2 (sec / 60 % 60) ++ ":" ++ pad2 (sec % 60)

/-- Python `round(q, 2)` as used at row-write time. -/
def round2 (q : ℚ) : ℚ := (round (q * 100) : ℤ) / 100

/-! ## Date window and filter -/

/-- The `[start_dt, end_dt)` day window computed in `main`. -/
structure Window where
  startDt : Timestamp
  endDt   : Timestamp
  deriving DecidableEq, Repr

/-- `main`'s window construction:
`start_dt = datetime.fromisoformat(START_DATE_STR).replace(tzinfo=PACIFIC)`
(a wall time `startWall` whose offset the zone derives from the wall time)
and `end_dt = start_dt + timedelta(days=1)` (adds 86400 s of wall time,
the offset being re-derived by the zone). `zoneWall` maps a wall-clock
time to the zone's UTC offset there. -/
def mainWindow (zoneWall : Int → Int) (startWall : Int) : Window :=
  { startDt := ⟨startWall, zoneWall startWall⟩
    endDt   := ⟨startWall + 86400, zoneWall (startWall + 86400)⟩ }

/-- The filter `start_dt <= local < end_dt` where
`local = parser.isoparse(a["start_date_local"]).astimezone(PACIFIC)`.
Aware datetimes compare by absolute instant.  `zone` maps an instant to
the reference zone's UTC offset there. -/
def inWindow (zone : Int → Int) (w : Window) (t : Timestamp) : Bool :=
  let l := t.astimezone zone
  decide (w.startDt.instant ≤ l.instant) && decide (l.instant < w.endDt.instant)

/-! ## Aggregation (dict-of-dicts with insertion order) -/

/-- One per-athlete accumulator record
(`{"name": ..., "meters": 0, "moving": 0, "elapsed": 0}`). -/
@[ext] structure Rec where
  dispName : String
  meters   : ℚ
  moving   : Nat
  elapsed  : Nat
  deriving DecidableEq, Repr

/-- The data one matching activity contributes. -/
structure Entry where
  aid  : Nat
  dn   : String
  dist : ℚ
  mov  : Nat
  ela  : Nat
  deriving DecidableEq, Repr

/-- Python `str.strip()`: drop leading and trailing whitespace. -/
def pyStrip (s : String) : String :=
  ⟨((s.data.dropWhile Char.isWhitespace).reverse.dropWhile Char.isWhitespace).reverse⟩

/-- Add an activity's metrics onto an existing accumulator
(`rec["meters"] += ...` etc.; the display name is kept). -/
def bump (r : Rec) (e : Entry) : Rec :=
  { r with meters := r.meters + e.dist, moving := r.moving + e.mov,
           elapsed := r.elapsed + e.ela }

/-- The accumulator created for an athlete's first matching activity:
the zero-initialised record immediately bumped by that activity. -/
def initRec (e : Entry) : Rec := ⟨e.dn, e.dist, e.mov, e.ela⟩

/-- Association-list lookup (Python dict lookup; keys are unique). -/
def lookupA {β : Type} : List (Nat × β) → Nat → Option β
  | [], _ => none
  | (k, v) :: rest, k' => if k' = k then some v else lookupA rest k'

/-- String-keyed association-list lookup (the outer `groups` dict). -/
def lookupS {β : Type} : List (String × β) → String → Option β
  | [], _ => none
  | (k, v) :: rest, k' => if k' = k then some v else lookupS rest k'

/-- `groups[name].get(aid, default)` + `+=`: update the athlete's record in
place, or append a fresh one at the end (dict insertion order). -/
def addEntry : List (Nat × Rec) → Entry → List (Nat × Rec)
  | [], e => [(e.aid, initRec e)]
  | (k, r) :: rest, e =>
      if e.aid = k then (k, bump r e) :: rest else (k, r) :: addEntry rest e

/-- The `groups` dict: activity name → (athlete id → accumulator). -/
abbrev Groups : Type := List (String × List (Nat × Rec))

/-- Replace the inner dict stored under an existing name (the
`setdefault`/`STORE_SUBSCR` that runs after the right-hand side of
line 159 succeeded, which requires the name to be present already). -/
def setG : Groups → String → List (Nat × Rec) → Groups
  | [], _, _ => []
  | (k, inner) :: rest, nm, newInner =>
      if nm = k then (k, newInner) :: rest
      else (k, inner) :: setG rest nm newInner

/-- Display name `f"{ath.get('firstname','')} {ath.get('lastname','')}".strip()`. -/
def dispOf (ath : Athlete) : String :=
  pyStrip (ath.firstname.getD "" ++ " " ++ ath.lastname.getD "")

/-- One iteration of the grouping loop in `leaderboard.py`'s `main`
(lines 151–166).  Raises `KeyError` exactly where the Python indexes a
missing key.  In line 159,
`groups.setdefault(name, {})[aid] = groups[name].get(aid, {...})`,
Python evaluates the right-hand side before the assignment target, so
`groups[name]` raises `KeyError(name)` whenever the name is not yet a
key — and since this statement is the only place a name could be
inserted, that happens on the first in-window activity of every name. -/
def lbStep (zone : Int → Int) (w : Window) (g : Groups) (a : Activity) :
    Except String Groups :=
  match a.start_date_local with
  | none => .error "KeyError: start_date_local"
  | some t =>
    if inWindow zone w t then
      let nm := a.name.getD "Unnamed Activity"
      match a.athlete with
      | none => .error "KeyError: athlete"
      | some ath =>
        match ath.athId with
        | none => .error "KeyError: id"
        | some aid =>
          match lookupS g nm with
          | none => .error ("KeyError: " ++ nm)
          | some inner =>
              .ok (setG g nm (addEntry inner
                ⟨aid, dispOf ath, a.distance.getD 0,
                 a.moving_time.getD 0, a.elapsed_time.getD 0⟩))
    else .ok g

/-- The grouping loop of `leaderboard.py` started from accumulator `g`:
each iteration either updates the dict or raises, and a raise aborts the
loop. -/
def lbAggregateFrom (zone : Int → Int) (w : Window) :
    Groups → List Activity → Except String Groups
  | g, [] => .ok g
  | g, a :: rs =>
      match lbStep zone w g a with
      | .error e => .error e
      | .ok g1 => lbAggregateFrom zone w g1 rs

/-- The full grouping-and-aggregation step of `leaderboard.py`'s `main`. -/
def lbAggregate (zone : Int → Int) (w : Window) (runs : List Activity) :
    Except String Groups :=
  lbAggregateFrom zone w [] runs

/-- One iteration of the totals loop in `app.py` (lines 111–118):
skips when `ath.get("id")` is falsy, raises `KeyError` where the Python
indexes a missing key. -/
def appStep (tot : List (Nat × Rec)) (a : Activity) :
    Except String (List (Nat × Rec)) :=
  match a.athlete with
  | none => .error "KeyError: athlete"
  | some ath =>
    match ath.athId with
    | none => .ok tot
    | some aid =>
      if aid = 0 then .ok tot
      else
        match ath.firstname, a.distance, a.moving_time, a.elapsed_time with
        | some fn, some dist, some mov, some ela =>
            .ok (addEntry tot
                  ⟨aid, pyStrip (fn ++ " " ++ ath.lastname.getD ""), dist, mov, ela⟩)
        | _, _, _, _ => .error "KeyError"

/-- The totals loop of `app.py` started from accumulator `tot`. -/
def appAggregateFrom :
    List (Nat × Rec) → List Activity → Except String (List (Nat × Rec))
  | tot, [] => .ok tot
  | tot, a :: rest =>
      match appStep tot a with
      | .error e => .error e
      | .ok tot1 => appAggregateFrom tot1 rest

/-! ## Output rows and destination writes -/

/-- A row handed to `push_rows` (`leaderboard.py` lines 184–191). -/
structure RowOut where
  rname   : String
  miles   : ℚ
  moving  : String
  elapsed : String
  deriving DecidableEq, Repr

/-- Row construction for one table: `athletes.values()` in dict insertion
order, miles unrounded at this point. -/
def lbRows (inner : List (Nat × Rec)) : List RowOut :=
  inner.map fun p =>
    ⟨p.2.dispName, meters_to_miles p.2.meters,
     format_hhmmss p.2.moving, format_hhmmss p.2.elapsed⟩

/-- A destination (Notion) HTTP call.  Tables are identified by their
title, which determines the database id one-to-one in a run. -/
inductive Op where
  | create (title : String)
  | insert (title : String) (rname : String) (number : ℚ)
           (moving elapsed : String)
  deriving DecidableEq, Repr

/-- `push_rows`: one POST per row, `raise_for_status` after each; a
failure aborts the remaining rows of the table (the exception propagates).
Returns the calls attempted (the failing one included) and whether all
succeeded.  Rounding to two decimals happens here, at write time. -/
def pushRowsT (oracle : Op → Bool) (title : String) :
    List RowOut → List Op × Bool
  | [] => ([], true)
  | r :: rest =>
      let op := Op.insert title r.rname (round2 r.miles) r.moving r.elapsed
      if oracle op then
        let (t, ok) := pushRowsT oracle title rest
        (op :: t, ok)
      else ([op], false)

/-- The per-table loop of `main` (lines 180–192): for each activity name,
create a database then push its rows.  There is no `try`/`except`, so any
failure propagates out of the loop and nothing further is attempted. -/
def writeAll (oracle : Op → Bool) (dateStr : String) :
    Groups → List Op × Bool
  | [] => ([], true)
  | (nm, inner) :: rest =>
      let title := nm ++ " – " ++ dateStr
      let cop := Op.create title
      if oracle cop then
        let (t1, ok1) := pushRowsT oracle title (lbRows inner)
        if ok1 then
          let (t2, ok2) := writeAll oracle dateStr rest
          (cop :: t1 ++ t2, ok2)
        else (cop :: t1, false)
      else ([cop], false)

/-- `main` after `fetch_all_runs` (lines 145–192): early return when no
runs were fetched; group; early return when no group matched; otherwise
run the destination writes.  Returns the destination calls attempted. -/
def mainModel (zone zoneWall : Int → Int) (startWall : Int)
    (oracle : Op → Bool) (dateStr : String) (runs : List Activity) :
    Except String (List Op) :=
  if runs.isEmpty then .ok []
  else
    match lbAggregate zone (mainWindow zoneWall startWall) runs with
    | .error e => .error e
    | .ok groups =>
        if groups.isEmpty then .ok []
        else .ok (writeAll oracle dateStr groups).1

/-! ## Paginated fetch -/

/-- `a.get("type") == "Run"`. -/
def isRun (a : Activity) : Bool := a.type = some "Run"

/-- The pagination loop of `fetch_all_runs` (`leaderboard.py` lines
46–65) / `fetch_runs` (`app.py`).  The server's responses are the given
list of pages; the loop requests page `p` with `per_page = 200`, stops on
the first empty page, and keeps only `Run`-typed entries.  Returns the
`(page, per_page)` request parameters issued and the runs collected. -/
def fetchPages : List (List Activity) → Nat → List (Nat × Nat) × List Activity
  | [], _ => ([], [])
  | b :: rest, p =>
      if b.isEmpty then ([(p, 200)], [])
      else
        let (reqs, runs) := fetchPages rest (p + 1)
        ((p, 200) :: reqs, b.filter isRun ++ runs)

/-- The summary-fetch phase, starting at page 1. -/
def fetchAllRunsPages (pages : List (List Activity)) :
    List (Nat × Nat) × List Activity :=
  fetchPages pages 1

/-! ## Detail backfill -/

/-- Outcome of `GET /activities/{id}`. -/
inductive DetailResp where
  | ok (a : Activity)
  | notFound
  | httpErr (code : Nat)
  deriving Repr

/-- Result of the backfill phase: the detailed activities kept, the ids
for which a detail fetch was issued, and how many were skipped on 404. -/
structure BackfillRes where
  detailed   : List Activity
  fetched    : List Nat
  skipped404 : Nat
  deriving DecidableEq, Repr

/-- The pass-through test of the backfill (line 78):
`"start_date_local" in a and isinstance(a.get("athlete"), dict) and "id" in a["athlete"]`. -/
def complete (a : Activity) : Bool :=
  a.start_date_local.isSome && (a.athlete.map (·.athId.isSome)).getD false

/-- The detail-backfill loop of `fetch_all_runs` (lines 70–91):
drop summaries whose `id` is falsy; pass complete records through
untouched; otherwise fetch details — 404 drops the record and continues,
any other HTTP error propagates (`raise_for_status`). -/
def backfill (d : Nat → DetailResp) : List Activity → Except String BackfillRes
  | [] => .ok ⟨[], [], 0⟩
  | a :: rest =>
    match a.actId with
    | none => backfill d rest
    | some i =>
      if i = 0 then backfill d rest
      else
        if complete a then
          match backfill d rest with
          | .error e => .error e
          | .ok res => .ok ⟨a :: res.detailed, res.fetched, res.skipped404⟩
        else
          match d i with
          | .notFound =>
              match backfill d rest with
              | .error e => .error e
              | .ok res => .ok ⟨res.detailed, i :: res.fetched, res.skipped404 + 1⟩
          | .httpErr code => .error ("HTTPError " ++ natStr code)
          | .ok det =>
              match backfill d rest with
              | .error e => .error e
              | .ok res => .ok ⟨det :: res.detailed, i :: res.fetched, res.skipped404⟩

/-! ## Decimal rendering: decode lemmas

`strVal` parses the decimal string back to the number; it gives injectivity
of `pad2` without reasoning about character lists directly. -/

/-- Value of a little-endian digit list. -/
def valRev : List Nat → Nat
  | [] => 0
  | d :: r => d + 10 * valRev r

/-- Parse a decimal string back to its value (leading zeros ignored). -/
def strVal (s : String) : Nat :=
  s.data.foldl (fun a c => a * 10 + (c.toNat - 48)) 0

/-! ### Key insertion order -/

/-- First occurrences of a list of keys, those already `seen` excluded:
the order in which a dict keyed by them acquires its keys. -/
def newKeys (seen : List Nat) : List Nat → List Nat
  | [] => []
  | a :: r => if a ∈ seen then newKeys seen r else a :: newKeys (a :: seen) r

/-! ## The app.py aggregation, characterised -/

/-- The `Entry` one activity of the pre-filtered list contributes to
`app.py`'s totals dict (if any: athletes with a falsy id contribute
nothing). -/
def toEntryApp (a : Activity) : Option Entry :=
  match a.athlete with
  | none => none
  | some ath =>
    match ath.athId with
    | none => none
    | some aid =>
      if aid = 0 then none
      else some ⟨aid, pyStrip (ath.firstname.getD "" ++ " " ++ ath.lastname.getD ""),
                 a.distance.getD 0, a.moving_time.getD 0, a.elapsed_time.getD 0⟩

/-- All entries booked into the totals dict, in activity order. -/
def entriesApp (acts : List Activity) : List Entry :=
  acts.filterMap toEntryApp

/-- The athlete ids booked, in activity order (with repetitions). -/
def aidsApp (acts : List Activity) : List Nat :=
  (entriesApp acts).map (·.aid)

/-- Does `a` count towards athlete `aid`'s totals? -/
def appMatchesB (aid : Nat) (a : Activity) : Bool :=
  match a.athlete with
  | none => false
  | some ath => ath.athId = some aid && decide (aid ≠ 0)

/-- The activities booked under athlete `aid`. -/
def matchedApp (aid : Nat) (acts : List Activity) : List Activity :=
  acts.filter (appMatchesB aid)

def sumDistApp (aid : Nat) (acts : List Activity) : ℚ :=
  ((matchedApp aid acts).map (fun a => a.distance.getD 0)).sum

def sumMovApp (aid : Nat) (acts : List Activity) : Nat :=
  ((matchedApp aid acts).map (fun a => a.moving_time.getD 0)).sum

def sumElaApp (aid : Nat) (acts : List Activity) : Nat :=
  ((matchedApp aid acts).map (fun a => a.elapsed_time.getD 0)).sum

/-- The display name `app.py` would build from an activity's athlete. -/
def dispOfApp (a : Activity) : String :=
  pyStrip ((a.athlete.bind (·.firstname)).getD ""
    ++ " " ++ (a.athlete.bind (·.lastname)).getD "")

/-- The display name recorded for an athlete: that of their first
matching activity. -/
def dispFirstApp (aid : Nat) (acts : List Activity) : String :=
  match matchedApp aid acts with
  | [] => ""
  | a :: _ => dispOfApp a

/-- The accumulator `app.py` builds for athlete `aid`: name of the first
matching activity, componentwise sums over all matching activities. -/
def recApp (aid : Nat) (acts : List Activity) : Rec :=
  ⟨dispFirstApp aid acts, sumDistApp aid acts, sumMovApp aid acts,
   sumElaApp aid acts⟩

/-- `app.py`'s row construction (lines 120–128): `totals.values()` in
dict insertion order, miles via the inline literal factor, times via
`strftime`-over-`gmtime`; unrounded at this point. -/
def appRowsOf (tot : List (Nat × Rec)) : List RowOut :=
  tot.map fun p =>
    ⟨p.2.dispName, p.2.meters * (621371 / 1000000000),
     appTimeFormat p.2.moving, appTimeFormat p.2.elapsed⟩

/-- The record an entry list accumulates for key `k` (zero record when
`k` never occurs). -/
def recOf (k : Nat) (E : List Entry) : Rec :=
  match E.filter (fun e => e.aid = k) with
  | [] => ⟨"", 0, 0, 0⟩
  | e :: tl => tl.foldl bump (initRec e)

/-! ## Concrete data for witnesses and counterexamples -/

/-- A fixed-offset reference zone (offset 0). -/
def zone0 : Int → Int := fun _ => 0

/-- A day window starting at instant 0 in `zone0`. -/
def win0 : Window := mainWindow zone0 0

/-- A well-formed Run on the witness day for athlete `aid`. -/
def actA (nm : String) (aid : Nat) (dist : ℚ) (mov ela : Nat) : Activity :=
  { actId := some 11, type := some "Run", name := some nm,
    start_date_local := some ⟨100, 0⟩,
    athlete := some ⟨some aid, some "A", some "B"⟩,
    distance := some dist, moving_time := some mov, elapsed_time := some ela }

/-- Two athletes, one run each, same event; the first ran less. -/
def runsW : List Activity :=
  [actA "Race" 7 100 60 70, actA "Race" 9 200 61 71]

/-- The inner dict the grouping loop builds from `runsW`. -/
def innerW : List (Nat × Rec) :=
  [(7, ⟨"A B", 100, 60, 70⟩), (9, ⟨"A B", 200, 61, 71⟩)]

/-- An in-window Run whose athlete record has no `id` key. -/
def actBad : Activity :=
  { actId := some 12, type := some "Run", name := some "Race",
    start_date_local := some ⟨100, 0⟩,
    athlete := some ⟨none, some "A", none⟩,
    distance := some 100, moving_time := some 60, elapsed_time := some 70 }

/-- Two tables to write, with small integral totals. -/
def gTwo : Groups :=
  [("A", [(1, ⟨"x", 100, 60, 70⟩)]), ("B", [(2, ⟨"y", 50, 30, 40⟩)])]

/-- An oracle that rejects exactly the creation of table `A – d`. -/
def oracleFailA : Op → Bool := fun op =>
  match op with
  | .create t => if t = "A – d" then false else true
  | _ => true

/-- A Run summary with no optional payloads. -/
def actRun1 : Activity := ⟨none, some "Run", none, none, none, none, none, none⟩

/-- A non-Run activity. -/
def actRide : Activity := ⟨none, some "Ride", none, none, none, none, none, none⟩

/-! ## C7: the detail backfill -/

/-- What the backfill emits for one summary: dropped when the `id` is
falsy; passed through unchanged when complete; otherwise the fetched
detail, or nothing on a 404. -/
def passOf (d : Nat → DetailResp) (a : Activity) : Option Activity :=
  match a.actId with
  | none => none
  | some i =>
      if i = 0 then none
      else if complete a then some a
      else match d i with
           | .ok det => some det
           | _ => none

/-- The detail fetch the backfill issues for one summary, if any. -/
def fetchOf (a : Activity) : Option Nat :=
  match a.actId with
  | none => none
  | some i => if i = 0 then none else if complete a then none else some i

/-- Did a detail lookup 404? -/
def isNotFound : DetailResp → Bool
  | .notFound => true
  | _ => false

/-- A detail server that 404s every lookup. -/
def dNF : Nat → DetailResp := fun _ => .notFound

/-- A complete record (has `start_date_local` and `athlete.id`) whose own
`id` key is missing. -/
def actNoId : Activity :=
  { actId := none, type := some "Run", name := some "X",
    start_date_local := some ⟨0, 0⟩,
    athlete := some ⟨some 7, none, none⟩,
    distance := some 0, moving_time := some 0, elapsed_time := some 0 }

/-- A complete summary with a truthy id. -/
def actGood : Activity :=
  { actId := some 3, type := some "Run", name := some "X",
    start_date_local := some ⟨0, 0⟩,
    athlete := some ⟨some 7, none, none⟩,
    distance := some 0, moving_time := some 0, elapsed_time := some 0 }

/-- An incomplete summary with a truthy id (no `start_date_local`). -/
def actPartial : Activity :=
  { actId := some 5, type := some "Run", name := some "X",
    start_date_local := none,
    athlete := some ⟨some 7, none, none⟩,
    distance := some 0, moving_time := some 0, elapsed_time := some 0 }

/-- An activity whose local start lies before the witness window. -/
def actOut : Activity :=
  { actId := some 13, type := some "Run", name := some "Race",
    start_date_local := some ⟨-500, 0⟩,
    athlete := some ⟨some 7, some "A", some "B"⟩,
    distance := some 100, moving_time := some 60, elapsed_time := some 70 }

/-! ## Theorems -/

@[simp] theorem Timestamp.astimezone_instant (t : Timestamp) (zone : Int → Int) :
    (t.astimezone zone).instant = t.instant := by
  simp [Timestamp.astimezone, Timestamp.instant]

theorem format_hhmmss_test : format_hhmmss 3661 = "01:01:01" := by
  simp [format_hhmmss, pad2, natStr, digitsRev]
  decide

theorem valRev_digitsRev (n : Nat) : valRev (digitsRev n) = n := by
  induction n using Nat.strong_induction_on with
  | _ n ih =>
    rw [digitsRev]
    split
    · simp [valRev]; omega
    · rename_i h
      have hlt : n / 10 < n := Nat.div_lt_self (Nat.pos_of_ne_zero h) (by norm_num)
      simp [valRev, ih _ hlt]
      omega

theorem digitsRev_lt (n : Nat) : ∀ d ∈ digitsRev n, d < 10 := by
  induction n using Nat.strong_induction_on with
  | _ n ih =>
    rw [digitsRev]
    split
    · simp
    · rename_i h
      intro d hd
      rcases List.mem_cons.mp hd with h1 | h2
      · omega
      · exact ih _ (Nat.div_lt_self (Nat.pos_of_ne_zero h) (by norm_num)) d h2

theorem digitChar_toNat : ∀ d, d < 10 → (digitChar d).toNat = 48 + d := by decide

theorem foldl_decode (L : List Nat) (hL : ∀ d ∈ L, d < 10) (acc : Nat) :
    (L.reverse.map digitChar).foldl (fun a c => a * 10 + (c.toNat - 48)) acc
      = acc * 10 ^ L.length + valRev L := by
  induction L generalizing acc with
  | nil => simp [valRev]
  | cons d L ih =>
    have hd : (digitChar d).toNat = 48 + d := digitChar_toNat d (hL d (by simp))
    have hL' : ∀ x ∈ L, x < 10 := fun x hx => hL x (by simp [hx])
    simp only [List.reverse_cons, List.map_append, List.foldl_append, List.map_cons,
      List.map_nil, List.foldl_cons, List.foldl_nil, ih hL']
    rw [hd]
    simp only [valRev, List.length_cons, pow_succ]
    ring_nf
    omega

theorem strVal_natStr (n : Nat) : strVal (natStr n) = n := by
  unfold natStr
  split
  · rename_i h; subst h; rfl
  · show ((digitsRev n).reverse.map digitChar).foldl _ 0 = n
    rw [foldl_decode (digitsRev n) (digitsRev_lt n) 0, valRev_digitsRev]
    simp

theorem strVal_pad2 (n : Nat) : strVal (pad2 n) = n := by
  unfold pad2
  split
  · show (("0" ++ natStr n).data).foldl _ 0 = n
    have hdata : ("0" ++ natStr n).data = '0' :: (natStr n).data := rfl
    rw [hdata]
    simpa [List.foldl_cons] using strVal_natStr n
  · exact strVal_natStr n

theorem pad2_injective : Function.Injective pad2 := by
  intro a b h
  have := congrArg strVal h
  rwa [strVal_pad2, strVal_pad2] at this

/-- The minute fields of the two formatters coincide. -/
theorem minute_fields (s : Nat) : s % 3600 / 60 = s / 60 % 60 := by
  rw [show (3600 : ℕ) = 60 * 60 by norm_num, Nat.mod_mul_right_div_self]

/-- The second fields of the two formatters coincide. -/
theorem second_fields (s : Nat) : s % 3600 % 60 = s % 60 :=
  Nat.mod_mod_of_dvd s (by norm_num)

theorem format_agree_below (s : Nat) (h : s < 86400) :
    format_hhmmss s = appTimeFormat s := by
  unfold format_hhmmss appTimeFormat
  have h24 : s / 3600 < 24 := by
    rw [Nat.div_lt_iff_lt_mul (by norm_num)]; omega
  rw [minute_fields, second_fields, Nat.mod_eq_of_lt h24]

theorem format_diverge_above (s : Nat) (h : 86400 ≤ s) :
    format_hhmmss s ≠ appTimeFormat s := by
  intro heq
  unfold format_hhmmss appTimeFormat at heq
  rw [minute_fields, second_fields] at heq
  have hd := congrArg String.data heq
  have hd' : (pad2 (s / 3600)).data ++ (":" ++ pad2 (s / 60 % 60) ++ ":" ++ pad2 (s % 60)).data
      = (pad2 (s / 3600 % 24)).data ++ (":" ++ pad2 (s / 60 % 60) ++ ":" ++ pad2 (s % 60)).data := by
    simpa [List.append_assoc] using hd
  have hpad : pad2 (s / 3600) = pad2 (s / 3600 % 24) := by
    have := List.append_cancel_right hd'
    exact congrArg String.mk this
  have hinj := pad2_injective hpad
  have h24 : 24 ≤ s / 3600 := by
    rw [Nat.le_div_iff_mul_le (by norm_num)]; omega
  omega

theorem format_90000 : format_hhmmss 90000 = "25:00:00" := by
  simp [format_hhmmss, pad2, natStr, digitsRev]
  decide

theorem appTimeFormat_90000 : appTimeFormat 90000 = "01:00:00" := by
  simp [appTimeFormat, pad2, natStr, digitsRev]
  decide

/-! ### Association-list lemmas -/

theorem addEntry_lookup (i : List (Nat × Rec)) (e : Entry) (k : Nat) :
    lookupA (addEntry i e) k =
      if k = e.aid then
        some (match lookupA i e.aid with
              | some r => bump r e
              | none => initRec e)
      else lookupA i k := by
  induction i with
  | nil => simp [addEntry, lookupA]
  | cons p rest ih =>
    obtain ⟨k0, r0⟩ := p
    by_cases h0 : e.aid = k0
    · subst h0
      simp only [addEntry, if_pos rfl, lookupA]
      by_cases hk : k = e.aid <;> simp [hk]
    · simp only [addEntry, if_neg h0, lookupA]
      by_cases hk : k = k0
      · subst hk
        have hne : ¬ k = e.aid := fun hc => h0 (hc ▸ rfl)
        simp [lookupA, if_neg hne, hne]
      · simp only [if_neg hk, ih]

theorem addEntry_keys (i : List (Nat × Rec)) (e : Entry) :
    (addEntry i e).map Prod.fst =
      if (lookupA i e.aid).isSome then i.map Prod.fst
      else i.map Prod.fst ++ [e.aid] := by
  induction i with
  | nil => simp [addEntry, lookupA]
  | cons p rest ih =>
    obtain ⟨k0, r0⟩ := p
    by_cases h0 : e.aid = k0
    · subst h0
      simp [addEntry, lookupA]
    · simp [addEntry, if_neg h0, lookupA, Ne.symm h0, ih]
      split <;> simp

theorem lookupA_isSome_iff {β : Type} (i : List (Nat × β)) (k : Nat) :
    (lookupA i k).isSome ↔ k ∈ i.map Prod.fst := by
  induction i with
  | nil => simp [lookupA]
  | cons p rest ih =>
    obtain ⟨k0, v0⟩ := p
    by_cases hk : k = k0
    · subst hk; simp [lookupA]
    · simp [lookupA, if_neg hk, hk, ih]

theorem inner_lookup (es : List Entry) (i : List (Nat × Rec)) (k : Nat) :
    lookupA (es.foldl addEntry i) k =
      match lookupA i k with
      | some r => some ((es.filter (fun e => e.aid = k)).foldl bump r)
      | none =>
          match es.filter (fun e => e.aid = k) with
          | [] => none
          | e :: tl => some (tl.foldl bump (initRec e)) := by
  induction es generalizing i with
  | nil => cases h : lookupA i k <;> simp [List.foldl_nil, h]
  | cons e es ih =>
    simp only [List.foldl_cons]
    rw [ih (addEntry i e)]
    rw [addEntry_lookup]
    by_cases hk : k = e.aid
    · subst hk
      simp only [if_pos rfl, List.filter_cons, decide_eq_true_eq]
      cases h0 : lookupA i e.aid <;> simp [h0, List.foldl_cons]
    · have : ¬ e.aid = k := fun hc => hk (hc ▸ rfl)
      simp only [if_neg hk, List.filter_cons, this, decide_eq_true_eq, if_neg this]
      simp [this]

theorem foldl_bump_fields (l : List Entry) (r : Rec) :
    (l.foldl bump r).dispName = r.dispName ∧
    (l.foldl bump r).meters = r.meters + (l.map (·.dist)).sum ∧
    (l.foldl bump r).moving = r.moving + (l.map (·.mov)).sum ∧
    (l.foldl bump r).elapsed = r.elapsed + (l.map (·.ela)).sum := by
  induction l generalizing r with
  | nil => simp
  | cons e l ih =>
    obtain ⟨h1, h2, h3, h4⟩ := ih (bump r e)
    refine ⟨?_, ?_, ?_, ?_⟩
    · simp only [List.foldl_cons]; rw [h1]; simp [bump]
    · simp only [List.foldl_cons, List.map_cons, List.sum_cons]
      rw [h2]; simp only [bump]; ring
    · simp only [List.foldl_cons, List.map_cons, List.sum_cons]
      rw [h3]; simp only [bump]; ring
    · simp only [List.foldl_cons, List.map_cons, List.sum_cons]
      rw [h4]; simp only [bump]; ring

theorem newKeys_congr (l : List Nat) :
    ∀ s t : List Nat, (∀ x, x ∈ s ↔ x ∈ t) → newKeys s l = newKeys t l := by
  induction l with
  | nil => intro s t h; rfl
  | cons a r ih =>
    intro s t h
    by_cases ha : a ∈ s
    · rw [newKeys, if_pos ha, newKeys, if_pos ((h a).mp ha), ih s t h]
    · have ha' : a ∉ t := fun hc => ha ((h a).mpr hc)
      rw [newKeys, if_neg ha, newKeys, if_neg ha']
      rw [ih (a :: s) (a :: t) (by intro x; simp [h x])]

theorem newKeys_mem (l : List Nat) :
    ∀ (s : List Nat) (x : Nat), x ∈ newKeys s l ↔ x ∈ l ∧ x ∉ s := by
  induction l with
  | nil => intro s x; simp [newKeys]
  | cons a r ih =>
    intro s x
    by_cases ha : a ∈ s
    · rw [newKeys, if_pos ha, ih]
      constructor
      · rintro ⟨h1, h2⟩; exact ⟨List.mem_cons_of_mem a h1, h2⟩
      · rintro ⟨h1, h2⟩
        rcases List.mem_cons.mp h1 with h | h
        · exact absurd (h ▸ ha) h2
        · exact ⟨h, h2⟩
    · rw [newKeys, if_neg ha]
      by_cases hx : x = a
      · subst hx; simp [ha]
      · simp only [List.mem_cons, hx, false_or, ih]

theorem newKeys_nodup (l : List Nat) :
    ∀ s : List Nat, (newKeys s l).Nodup := by
  induction l with
  | nil => intro s; simp [newKeys]
  | cons a r ih =>
    intro s
    by_cases ha : a ∈ s
    · rw [newKeys, if_pos ha]; exact ih s
    · rw [newKeys, if_neg ha]
      refine List.nodup_cons.mpr ⟨?_, ih (a :: s)⟩
      intro hc
      exact ((newKeys_mem r (a :: s) a).mp hc).2 (List.mem_cons_self a s)

theorem foldl_addEntry_keys (es : List Entry) :
    ∀ i : List (Nat × Rec),
      (es.foldl addEntry i).map Prod.fst =
        i.map Prod.fst ++ newKeys (i.map Prod.fst) (es.map (·.aid)) := by
  induction es with
  | nil => intro i; simp [newKeys]
  | cons e es ih =>
    intro i
    simp only [List.foldl_cons, List.map_cons]
    rw [ih (addEntry i e), addEntry_keys]
    by_cases he : (lookupA i e.aid).isSome
    · have hmem : e.aid ∈ i.map Prod.fst := (lookupA_isSome_iff i e.aid).mp he
      rw [if_pos he, newKeys, if_pos hmem]
    · have hmem : e.aid ∉ i.map Prod.fst :=
        fun hc => he ((lookupA_isSome_iff i e.aid).mpr hc)
      rw [if_neg he, newKeys, if_neg hmem]
      rw [newKeys_congr (es.map (·.aid)) (i.map Prod.fst ++ [e.aid])
            (e.aid :: i.map Prod.fst) (by intro x; simp [or_comm])]
      simp [List.append_assoc]

/-- Two association lists with the same (duplicate-free) key sequence and
the same lookups are equal. -/
theorem assoc_ext {β : Type} :
    ∀ (l1 l2 : List (Nat × β)),
      l1.map Prod.fst = l2.map Prod.fst → (l1.map Prod.fst).Nodup →
      (∀ k, lookupA l1 k = lookupA l2 k) → l1 = l2 := by
  intro l1
  induction l1 with
  | nil =>
    intro l2 hk _ _
    cases l2 with
    | nil => rfl
    | cons p t => simp at hk
  | cons p t1 ih =>
    intro l2 hk hnd hl
    obtain ⟨k1, v1⟩ := p
    cases l2 with
    | nil => simp at hk
    | cons q t2 =>
      obtain ⟨k2, v2⟩ := q
      simp only [List.map_cons, List.cons.injEq] at hk
      obtain ⟨hkk, htk⟩ := hk
      subst hkk
      have hv : v1 = v2 := by
        have := hl k1
        simpa [lookupA] using this
      subst hv
      have hnd' : (t1.map Prod.fst).Nodup := (List.nodup_cons.mp hnd).2
      have hk1 : k1 ∉ t1.map Prod.fst := (List.nodup_cons.mp hnd).1
      have hk2 : k1 ∉ t2.map Prod.fst := htk ▸ hk1
      have hl' : ∀ k, lookupA t1 k = lookupA t2 k := by
        intro k
        by_cases hkq : k = k1
        · subst hkq
          have h1 : lookupA t1 k = none := by
            cases h : lookupA t1 k with
            | none => rfl
            | some v =>
                exact absurd ((lookupA_isSome_iff t1 k).mp (by simp [h])) hk1
          have h2 : lookupA t2 k = none := by
            cases h : lookupA t2 k with
            | none => rfl
            | some v =>
                exact absurd ((lookupA_isSome_iff t2 k).mp (by simp [h])) hk2
          rw [h1, h2]
        · have := hl k
          simpa [lookupA, if_neg hkq] using this
      rw [ih t2 htk hnd' hl']

/-- Lookup in the graph of a function over a duplicate-free key list. -/
theorem lookup_graph {β : Type} (f : Nat → β) :
    ∀ (ks : List Nat) (k : Nat), ks.Nodup →
      lookupA (ks.map (fun k => (k, f k))) k =
        if k ∈ ks then some (f k) else none := by
  intro ks
  induction ks with
  | nil => intro k _; simp [lookupA]
  | cons a t ih =>
    intro k hnd
    by_cases hk : k = a
    · subst hk; simp [lookupA]
    · simp only [List.map_cons, lookupA, if_neg hk,
        ih k (List.nodup_cons.mp hnd).2, List.mem_cons, hk, false_or]
      simp

/-! ### Characterising the app.py totals loop -/

theorem mem_map_aid_iff (E : List Entry) (k : Nat) :
    k ∈ E.map (·.aid) ↔ E.filter (fun e => e.aid = k) ≠ [] := by
  constructor
  · intro hk hc
    obtain ⟨e, he, hek⟩ := List.mem_map.mp hk
    have hmem : e ∈ E.filter (fun e => e.aid = k) :=
      List.mem_filter.mpr ⟨he, by simp [hek]⟩
    simp [hc] at hmem
  · intro hne
    obtain ⟨e, he⟩ := List.exists_mem_of_ne_nil _ hne
    have hm := List.mem_filter.mp he
    exact List.mem_map.mpr ⟨e, hm.1, by simpa using hm.2⟩

/-- Folding entries into an empty dict yields exactly the graph of
`recOf` over the keys in first-occurrence order. -/
theorem foldl_addEntry_graph (E : List Entry) :
    E.foldl addEntry [] = (newKeys [] (E.map (·.aid))).map (fun k => (k, recOf k E)) := by
  apply assoc_ext
  · rw [foldl_addEntry_keys E []]
    simp only [List.map_nil, List.nil_append, List.map_map]
    have hfid : ∀ l : List Nat,
        l.map (Prod.fst ∘ fun k => (k, recOf k E)) = l := by
      intro l
      rw [show (Prod.fst ∘ fun k => (k, recOf k E)) = id from rfl]
      exact List.map_id l
    rw [hfid]
  · rw [foldl_addEntry_keys E []]
    simpa using newKeys_nodup (E.map (·.aid)) []
  · intro k
    rw [inner_lookup E [] k, lookup_graph _ _ _ (newKeys_nodup _ _)]
    have hmem : k ∈ newKeys [] (E.map (·.aid)) ↔
        E.filter (fun e => e.aid = k) ≠ [] := by
      rw [newKeys_mem]
      simp [mem_map_aid_iff E k]
    simp only [lookupA]
    cases hflt : E.filter (fun e => e.aid = k) with
    | nil =>
      have hnot : k ∉ newKeys [] (E.map (·.aid)) := by
        rw [hmem, hflt]; simp
      rw [if_neg hnot]
    | cons e tl =>
      have hk : k ∈ newKeys [] (E.map (·.aid)) := by
        rw [hmem, hflt]; simp
      rw [if_pos hk]
      show some (tl.foldl bump (initRec e)) = some (recOf k E)
      simp only [recOf, hflt]

/-- A successful totals loop is the fold of the booked entries. -/
theorem appAggregateFrom_eq :
    ∀ (acts : List Activity) (tot0 tot : List (Nat × Rec)),
      appAggregateFrom tot0 acts = .ok tot →
      tot = (entriesApp acts).foldl addEntry tot0 := by
  intro acts
  induction acts with
  | nil =>
    intro tot0 tot h
    have h0 : tot0 = tot := by simpa [appAggregateFrom] using h
    simp [entriesApp, h0]
  | cons a rest ih =>
    intro tot0 tot h
    cases hath : a.athlete with
    | none => simp [appAggregateFrom, appStep, hath] at h
    | some ath =>
      cases haid : ath.athId with
      | none =>
        have h2 : appAggregateFrom tot0 rest = .ok tot := by
          simpa [appAggregateFrom, appStep, hath, haid] using h
        rw [ih tot0 tot h2]
        simp [entriesApp, List.filterMap_cons, toEntryApp, hath, haid]
      | some aid =>
        by_cases hz : aid = 0
        · subst hz
          have h2 : appAggregateFrom tot0 rest = .ok tot := by
            simpa [appAggregateFrom, appStep, hath, haid] using h
          rw [ih tot0 tot h2]
          simp [entriesApp, List.filterMap_cons, toEntryApp, hath, haid]
        · cases hfn : ath.firstname with
          | none => simp [appAggregateFrom, appStep, hath, haid, hz, hfn] at h
          | some fn =>
            cases hdist : a.distance with
            | none =>
              simp [appAggregateFrom, appStep, hath, haid, hz, hfn, hdist] at h
            | some dist =>
              cases hmov : a.moving_time with
              | none =>
                simp [appAggregateFrom, appStep, hath, haid, hz, hfn, hdist,
                  hmov] at h
              | some mov =>
                cases hela : a.elapsed_time with
                | none =>
                  simp [appAggregateFrom, appStep, hath, haid, hz, hfn, hdist,
                    hmov, hela] at h
                | some ela =>
                  have h2 : appAggregateFrom
                      (addEntry tot0 ⟨aid, pyStrip (fn ++ " " ++ ath.lastname.getD ""),
                        dist, mov, ela⟩) rest = .ok tot := by
                    simpa [appAggregateFrom, appStep, hath, haid, hz, hfn,
                      hdist, hmov, hela] using h
                  rw [ih _ tot h2]
                  simp [entriesApp, List.filterMap_cons, toEntryApp, hath, haid,
                    hz, hfn, hdist, hmov, hela]

/-- The entries booked for athlete `aid` are exactly the matching
activities' data, in order. -/
theorem entriesApp_filter (aid : Nat) :
    ∀ acts : List Activity,
      (entriesApp acts).filter (fun e => e.aid = aid)
        = (matchedApp aid acts).map (fun a =>
            ⟨aid, dispOfApp a, a.distance.getD 0, a.moving_time.getD 0,
             a.elapsed_time.getD 0⟩) := by
  intro acts
  induction acts with
  | nil => simp [entriesApp, matchedApp]
  | cons a rest ih =>
    simp only [entriesApp, List.filterMap_cons, matchedApp, List.filter_cons] at *
    cases hath : a.athlete with
    | none => simp [toEntryApp, hath, appMatchesB, ih]
    | some ath =>
      cases haid : ath.athId with
      | none => simp [toEntryApp, hath, haid, appMatchesB, ih]
      | some aid2 =>
        by_cases hz : aid2 = 0
        · subst hz
          have hm : appMatchesB aid a = false := by
            simp only [appMatchesB, hath, haid]
            by_cases ha : aid = 0
            · simp [ha]
            · simp [Ne.symm ha]
          simp [toEntryApp, hath, haid, hm, ih]
        · by_cases ha : aid2 = aid
          · subst ha
            have hm : appMatchesB aid2 a = true := by
              simp [appMatchesB, hath, haid, hz]
            simp [toEntryApp, hath, haid, hz, hm, ih, dispOfApp]
          · have hm : appMatchesB aid a = false := by
              simp [appMatchesB, hath, haid, ha]
            simp [toEntryApp, hath, haid, hz, hm, ih, ha]

/-- The accumulated record of athlete `aid` is the componentwise sums
over the matching activities (name from the first one). -/
theorem recOf_entriesApp (aid : Nat) (acts : List Activity) :
    recOf aid (entriesApp acts) = recApp aid acts := by
  unfold recOf
  rw [entriesApp_filter aid acts]
  cases hmt : matchedApp aid acts with
  | nil =>
    simp [recApp, dispFirstApp, sumDistApp, sumMovApp, sumElaApp, hmt]
  | cons a as =>
    simp only [List.map_cons]
    obtain ⟨hn, hm, hv, hl⟩ := foldl_bump_fields
      (as.map (fun a => (⟨aid, dispOfApp a, a.distance.getD 0,
        a.moving_time.getD 0, a.elapsed_time.getD 0⟩ : Entry)))
      (initRec ⟨aid, dispOfApp a, a.distance.getD 0, a.moving_time.getD 0,
        a.elapsed_time.getD 0⟩)
    refine Rec.ext ?_ ?_ ?_ ?_
    · rw [hn]
      simp [initRec, recApp, dispFirstApp, hmt]
    · rw [hm]
      simp only [initRec, recApp, sumDistApp, hmt, List.map_cons,
        List.sum_cons, List.map_map]
      rfl
    · rw [hv]
      simp only [initRec, recApp, sumMovApp, hmt, List.map_cons,
        List.sum_cons, List.map_map]
      rfl
    · rw [hl]
      simp only [initRec, recApp, sumElaApp, hmt, List.map_cons,
        List.sum_cons, List.map_map]
      rfl

/-- The totals dict, fully characterised: keyed by the athletes'
first-occurrence order, each key mapped to its sums. -/
theorem appTot_graph (acts : List Activity) (tot : List (Nat × Rec))
    (h : appAggregateFrom [] acts = .ok tot) :
    tot = (newKeys [] (aidsApp acts)).map (fun k => (k, recApp k acts)) := by
  rw [appAggregateFrom_eq acts [] tot h, foldl_addEntry_graph]
  simp only [aidsApp]
  apply List.map_congr_left
  intro k _
  rw [recOf_entriesApp]

/-- An athlete appears among the totals keys iff some activity matches. -/
theorem mem_newKeys_aidsApp (aid : Nat) (acts : List Activity) :
    aid ∈ newKeys [] (aidsApp acts) ↔ matchedApp aid acts ≠ [] := by
  rw [newKeys_mem]
  simp only [List.not_mem_nil, not_false_iff, and_true, aidsApp]
  rw [mem_map_aid_iff, entriesApp_filter aid acts]
  simp

/-- C1 (code bug).  The intended aggregation — implemented correctly by
`app.py`'s totals loop — produces, for each athlete, totals whose meters,
moving seconds and elapsed seconds are the exact sums over that athlete's
matching activities, each counted once, a group being present iff it has
a matching activity, and an activity being omitted only for lacking a
resolvable (truthy) athlete id.  The batch variant `leaderboard.py`
cannot perform it: in line 159 the right-hand side `groups[name]` is
evaluated before the left-hand `setdefault`, so the first in-window
activity of every name raises `KeyError(name)` — shown here on a single
well-formed in-window Run. -/
theorem C1_aggregation_exact_sums :
    (∀ (acts : List Activity) (tot : List (Nat × Rec)) (aid : Nat),
      appAggregateFrom [] acts = .ok tot →
      ((∃ r, lookupA tot aid = some r) ↔ matchedApp aid acts ≠ []) ∧
      (∀ r, lookupA tot aid = some r →
        r.meters = sumDistApp aid acts ∧ r.moving = sumMovApp aid acts ∧
        r.elapsed = sumElaApp aid acts)) ∧
    lbAggregate zone0 win0 [actA "Race" 7 100 60 70]
      = .error "KeyError: Race" := by
  constructor
  · intro acts tot aid h
    have hlk : lookupA tot aid =
        if aid ∈ newKeys [] (aidsApp acts) then some (recApp aid acts)
        else none := by
      rw [appTot_graph acts tot h, lookup_graph _ _ _ (newKeys_nodup _ _)]
    constructor
    · rw [hlk]
      by_cases hm : aid ∈ newKeys [] (aidsApp acts)
      · simp [hm, (mem_newKeys_aidsApp aid acts).mp hm]
      · have hmt : matchedApp aid acts = [] := by
          by_contra hc
          exact hm ((mem_newKeys_aidsApp aid acts).mpr hc)
        simp [hm, hmt]
    · intro r hr
      rw [hlk] at hr
      by_cases hm : aid ∈ newKeys [] (aidsApp acts)
      · rw [if_pos hm] at hr
        cases hr
        exact ⟨rfl, rfl, rfl⟩
      · rw [if_neg hm] at hr; cases hr
  · rfl

/-- Witness for C1: the characterisation evaluated on `runsW`, whose
totals loop builds `innerW`. -/
theorem C1_aggregation_exact_sums_witness :
    ((∃ r, lookupA innerW 7 = some r) ↔ matchedApp 7 runsW ≠ []) ∧
    (∀ r, lookupA innerW 7 = some r →
      r.meters = sumDistApp 7 runsW ∧ r.moving = sumMovApp 7 runsW ∧
      r.elapsed = sumElaApp 7 runsW) :=
  C1_aggregation_exact_sums.1 runsW innerW 7 (by rfl)

/-- C2 (as amended).  The rows handed to the destination writer are not
sorted by the ranking metric: `app.py`'s writer receives them in the
athletes' first-occurrence (dict insertion) order, each carrying that
athlete's accumulated totals (`leaderboard.py`'s writer is unreachable —
its grouping crashes on the first matching activity, see C1). -/
theorem C2_rows_insertion_order (acts : List Activity)
    (tot : List (Nat × Rec)) (h : appAggregateFrom [] acts = .ok tot) :
    appRowsOf tot = (newKeys [] (aidsApp acts)).map (fun k =>
      ⟨dispFirstApp k acts, sumDistApp k acts * (621371 / 1000000000),
       appTimeFormat (sumMovApp k acts), appTimeFormat (sumElaApp k acts)⟩) := by
  rw [appTot_graph acts tot h]
  simp only [appRowsOf, List.map_map]
  rfl

/-- Witness for C2 (amended): evaluated on `runsW`. -/
theorem C2_rows_insertion_order_witness :
    appRowsOf innerW = (newKeys [] (aidsApp runsW)).map (fun k =>
      ⟨dispFirstApp k runsW, sumDistApp k runsW * (621371 / 1000000000),
       appTimeFormat (sumMovApp k runsW), appTimeFormat (sumElaApp k runsW)⟩) :=
  C2_rows_insertion_order runsW innerW (by rfl)

/-- Counterexample to C2 as stated: on `runsW` the totals loop succeeds,
yet the row list handed to the writer is ascending in miles, not
descending — no sort is applied. -/
theorem C2_counterexample :
    appAggregateFrom [] runsW = .ok innerW ∧
    ¬ List.Chain' (fun x y : RowOut => y.miles ≤ x.miles) (appRowsOf innerW) := by
  refine ⟨by rfl, ?_⟩
  simp only [appRowsOf, innerW, List.map_cons, List.map_nil, List.chain'_cons,
    List.chain'_singleton, and_true]
  intro hc
  norm_num at hc

/-- Counterexample to C3 as stated: the batch grouping loop raises
`KeyError` on an in-window activity whose athlete lacks an id — it does
not skip it. -/
theorem C3_counterexample :
    lbAggregate zone0 win0 [actBad] = .error "KeyError: id" := by rfl

/-- C3 (as amended).  The interactive variant's totals loop silently
skips an activity whose `athlete.get("id")` is falsy (`None` or `0`) and
never errors on it, but the batch variant's grouping loop raises
`KeyError` on an in-window activity whose athlete record lacks an id; no
variant counts skips. -/
theorem C3_missing_athlete_id :
    (∀ (tot : List (Nat × Rec)) (a : Activity) (rest : List Activity)
        (ath : Athlete), a.athlete = some ath →
        (ath.athId = none ∨ ath.athId = some 0) →
        appAggregateFrom tot (a :: rest) = appAggregateFrom tot rest) ∧
    (∀ (zone : Int → Int) (w : Window) (g : Groups) (a : Activity)
        (rest : List Activity) (t : Timestamp) (ath : Athlete),
        a.start_date_local = some t → inWindow zone w t = true →
        a.athlete = some ath → ath.athId = none →
        lbAggregateFrom zone w g (a :: rest) = .error "KeyError: id") := by
  constructor
  · intro tot a rest ath hath hid
    rcases hid with h | h <;> simp [appAggregateFrom, appStep, hath, h]
  · intro zone w g a rest t ath hsd hin hath hid
    simp [lbAggregateFrom, lbStep, hsd, hin, hath, hid]

/-- Witness for C3 (amended): both behaviours evaluated concretely. -/
theorem C3_missing_athlete_id_witness :
    appAggregateFrom [] (actBad :: []) = appAggregateFrom [] [] ∧
    lbAggregateFrom zone0 win0 [] (actBad :: []) = .error "KeyError: id" :=
  ⟨C3_missing_athlete_id.1 [] actBad [] ⟨none, some "A", none⟩ (by rfl) (Or.inl rfl),
   C3_missing_athlete_id.2 zone0 win0 [] actBad [] ⟨100, 0⟩ ⟨none, some "A", none⟩
     (by rfl) (by rfl) (by rfl) (by rfl)⟩

/-- With every insert succeeding, `push_rows` issues exactly one POST per
row, in order, rounding the miles at write time. -/
theorem pushRowsT_all (title : String) : ∀ rows : List RowOut,
    (pushRowsT (fun _ => true) title rows).1
      = rows.map (fun r => Op.insert title r.rname (round2 r.miles)
          r.moving r.elapsed) := by
  intro rows
  induction rows with
  | nil => rfl
  | cons r rest ih => simp [pushRowsT, ih]

/-- C9.  The converters are pure functions of their argument;
`format_hhmmss 3661 = "01:01:01"`; the mile conversion uses the literal
factor `0.000621371`, sending `1609.344` within `1/1000` of `1`;
accumulation is kept in raw meters/seconds (each athlete's meters total
is the plain sum over their matching activities, in the totals loop that
completes — `app.py`'s), the conversion to miles happens at row
construction, and rounding to two decimals happens only in the row-write
step. -/
theorem C9_unit_conversions :
    format_hhmmss 3661 = "01:01:01" ∧
    |meters_to_miles (1609344 / 1000 : ℚ) - 1| < 1 / 1000 ∧
    (∀ (title : String) (inner : List (Nat × Rec)),
      (pushRowsT (fun _ => true) title (lbRows inner)).1
        = inner.map (fun p => Op.insert title p.2.dispName
            (round2 (meters_to_miles p.2.meters))
            (format_hhmmss p.2.moving) (format_hhmmss p.2.elapsed))) ∧
    (∀ (acts : List Activity) (tot : List (Nat × Rec)) (aid : Nat) (r : Rec),
      appAggregateFrom [] acts = .ok tot → lookupA tot aid = some r →
      r.meters = sumDistApp aid acts) := by
  refine ⟨format_hhmmss_test, ?_, ?_, ?_⟩
  · rw [abs_lt]
    constructor <;> norm_num [meters_to_miles]
  · intro title inner
    rw [pushRowsT_all title (lbRows inner)]
    simp only [lbRows, List.map_map]
    rfl
  · intro acts tot aid r h hr
    rw [appTot_graph acts tot h, lookup_graph _ _ _ (newKeys_nodup _ _)] at hr
    by_cases hm : aid ∈ newKeys [] (aidsApp acts)
    · rw [if_pos hm] at hr
      cases hr
      rfl
    · rw [if_neg hm] at hr; cases hr

/-- Witness for C9: the write trace and the raw-meters sum on `runsW`. -/
theorem C9_unit_conversions_witness :
    (pushRowsT (fun _ => true) "T" (lbRows innerW)).1
      = innerW.map (fun p => Op.insert "T" p.2.dispName
          (round2 (meters_to_miles p.2.meters))
          (format_hhmmss p.2.moving) (format_hhmmss p.2.elapsed)) ∧
    (100 : ℚ) = sumDistApp 7 runsW :=
  ⟨C9_unit_conversions.2.2.1 "T" innerW,
   C9_unit_conversions.2.2.2 runsW innerW 7 ⟨"A B", 100, 60, 70⟩
     (by rfl) (by rfl)⟩

/-! ## C4: destination-write failure handling -/

/-- `push_rows` fail-fast characterisation: on success every issued call
succeeded; on failure the trace is the successful prefix plus the one
failing call, and nothing after it was attempted. -/
theorem pushRowsT_spec (oracle : Op → Bool) (title : String) :
    ∀ rows : List RowOut,
      ((pushRowsT oracle title rows).2 = true →
        ∀ op ∈ (pushRowsT oracle title rows).1, oracle op = true) ∧
      ((pushRowsT oracle title rows).2 = false →
        ∃ tr op, (pushRowsT oracle title rows).1 = tr ++ [op] ∧
          oracle op = false ∧ ∀ o ∈ tr, oracle o = true) := by
  intro rows
  induction rows with
  | nil => simp [pushRowsT]
  | cons r rest ih =>
    set op := Op.insert title r.rname (round2 r.miles) r.moving r.elapsed with hop
    cases ho : oracle op with
    | false =>
      constructor
      · intro hc
        simp [pushRowsT, ← hop, ho] at hc
      · intro _
        refine ⟨[], op, ?_, ho, by simp⟩
        simp [pushRowsT, ← hop, ho]
    | true =>
      cases hrec : pushRowsT oracle title rest with
      | mk t ok =>
        have hres : pushRowsT oracle title (r :: rest) = (op :: t, ok) := by
          simp [pushRowsT, ← hop, ho, hrec]
        rw [hres]
        rw [hrec] at ih
        constructor
        · intro hok o hmem
          rcases List.mem_cons.mp hmem with h | h
          · rw [h]; exact ho
          · exact ih.1 hok o h
        · intro hfail
          obtain ⟨tr, bad, htr, hbad, hall⟩ := ih.2 hfail
          refine ⟨op :: tr, bad, ?_, hbad, ?_⟩
          · simpa using htr
          · intro o hmem
            rcases List.mem_cons.mp hmem with h | h
            · rw [h]; exact ho
            · exact hall o h

/-- C4 (as amended).  The per-table write loop has no exception handler:
on success every issued destination call succeeded, and on any failure
(create or row insert, on any table) the attempted-call trace is the
successful prefix plus the single failing call — nothing afterwards,
including every remaining table, is attempted. -/
theorem C4_failure_aborts_all (oracle : Op → Bool) (dateStr : String) :
    ∀ gs : Groups,
      ((writeAll oracle dateStr gs).2 = true →
        ∀ op ∈ (writeAll oracle dateStr gs).1, oracle op = true) ∧
      ((writeAll oracle dateStr gs).2 = false →
        ∃ tr op, (writeAll oracle dateStr gs).1 = tr ++ [op] ∧
          oracle op = false ∧ ∀ o ∈ tr, oracle o = true) := by
  intro gs
  induction gs with
  | nil => simp [writeAll]
  | cons p rest ih =>
    obtain ⟨nm, inner⟩ := p
    cases hc : oracle (Op.create (nm ++ " – " ++ dateStr)) with
    | false =>
      have hres : writeAll oracle dateStr ((nm, inner) :: rest)
          = ([Op.create (nm ++ " – " ++ dateStr)], false) := by
        simp [writeAll, hc]
      rw [hres]
      constructor
      · intro hc2; cases hc2
      · intro _
        exact ⟨[], Op.create (nm ++ " – " ++ dateStr), rfl, hc, by simp⟩
    | true =>
      cases hpr : pushRowsT oracle (nm ++ " – " ++ dateStr) (lbRows inner) with
      | mk t1 ok1 =>
        have hps := pushRowsT_spec oracle (nm ++ " – " ++ dateStr) (lbRows inner)
        rw [hpr] at hps
        cases hok1 : ok1 with
        | false =>
          have hres : writeAll oracle dateStr ((nm, inner) :: rest)
              = (Op.create (nm ++ " – " ++ dateStr) :: t1, false) := by
            rw [hok1] at hpr
            simp [writeAll, hc, hpr]
          rw [hres]
          constructor
          · intro hc2; cases hc2
          · intro _
            obtain ⟨tr, bad, htr, hbad, hall⟩ := hps.2 (by rw [hok1])
            refine ⟨Op.create (nm ++ " – " ++ dateStr) :: tr, bad, ?_, hbad, ?_⟩
            · simpa using htr
            · intro o hmem
              rcases List.mem_cons.mp hmem with h | h
              · rw [h]; exact hc
              · exact hall o h
        | true =>
          cases hwr : writeAll oracle dateStr rest with
          | mk t2 ok2 =>
            have hres : writeAll oracle dateStr ((nm, inner) :: rest)
                = (Op.create (nm ++ " – " ++ dateStr) :: t1 ++ t2, ok2) := by
              rw [hok1] at hpr
              simp [writeAll, hc, hpr, hwr]
            rw [hres]
            rw [hwr] at ih
            constructor
            · intro hok o hmem
              rcases List.mem_cons.mp hmem with h | h
              · rw [h]; exact hc
              · rcases List.mem_append.mp h with h2 | h2
                · exact hps.1 (by rw [hok1]) o h2
                · exact ih.1 hok o h2
            · intro hfail
              obtain ⟨tr, bad, htr, hbad, hall⟩ := ih.2 hfail
              refine ⟨Op.create (nm ++ " – " ++ dateStr) :: t1 ++ tr, bad, ?_, hbad, ?_⟩
              · simp only [htr] at *
                simp [List.append_assoc, htr]
              · intro o hmem
                rcases List.mem_cons.mp hmem with h | h
                · rw [h]; exact hc
                · rcases List.mem_append.mp h with h2 | h2
                  · exact hps.1 (by rw [hok1]) o h2
                  · exact hall o h2

/-- Counterexample to C4 as stated: with two tables to produce, a failed
create on the first means no call for the second table is ever attempted
— failure on one table does prevent attempting the others. -/
theorem C4_counterexample :
    (writeAll oracleFailA "d" gTwo).1 = [Op.create "A – d"] ∧
    Op.create "B – d" ∉ (writeAll oracleFailA "d" gTwo).1 := by
  refine ⟨by rfl, ?_⟩
  intro hc
  rw [show (writeAll oracleFailA "d" gTwo).1 = [Op.create "A – d"] from by rfl] at hc
  simp at hc

/-- Witness for C4 (amended): the fail-fast shape on the concrete trace. -/
theorem C4_failure_aborts_all_witness :
    ∃ tr op, (writeAll oracleFailA "d" gTwo).1 = tr ++ [op] ∧
      oracleFailA op = false ∧ ∀ o ∈ tr, oracleFailA o = true :=
  (C4_failure_aborts_all oracleFailA "d" gTwo).2 (by rfl)

/-! ## C5: pagination -/

/-- The pagination loop, started at any page number: on a server whose
pages are all non-empty until a final empty page, it issues one request
per page (size 200, consecutive page numbers) and returns the
concatenation of the non-empty pages' Run entries, in page order. -/
theorem fetchPages_spec :
    ∀ (pages : List (List Activity)) (p0 : Nat), (∀ p ∈ pages, p ≠ []) →
      fetchPages (pages ++ [[]]) p0
        = ((List.range (pages.length + 1)).map (fun i => (p0 + i, 200)),
           (pages.map (fun p => p.filter isRun)).flatten) := by
  intro pages
  induction pages with
  | nil =>
    intro p0 _
    simp [fetchPages, List.range_succ]
  | cons b bs ih =>
    intro p0 h
    have hb : ¬ b.isEmpty := by
      have := h b (by simp)
      simpa [List.isEmpty_iff] using this
    have hrec := ih (p0 + 1) (fun p hp => h p (by simp [hp]))
    have hrange : (List.range (bs.length + 1 + 1)).map (fun i => (p0 + i, 200))
        = (p0, 200) :: (List.range (bs.length + 1)).map (fun i => (p0 + 1 + i, 200)) := by
      rw [List.range_succ_eq_map]
      simp only [List.map_cons, List.map_map, Nat.add_zero, List.cons.injEq]
      refine ⟨trivial, ?_⟩
      apply List.map_congr_left
      intro i _
      simp only [Function.comp_apply, Prod.mk.injEq, and_true]
      omega
    simp only [List.cons_append, fetchPages, hb, Bool.false_eq_true,
      not_false_eq_true, if_false, List.append_eq]
    rw [hrec]
    simp only [List.map_cons, List.length_cons, List.flatten_cons, hrange]

/-- C5.  For any finite page sequence ending in an empty page (all pages
before it non-empty), the club-activity fetch terminates, requesting
consecutive pages of size 200 up to and including the first empty page,
and returns exactly the concatenation, in page order, of the `Run`-typed
entries of the non-empty pages. -/
theorem C5_pagination (pages : List (List Activity))
    (h : ∀ p ∈ pages, p ≠ []) :
    fetchAllRunsPages (pages ++ [[]])
      = ((List.range (pages.length + 1)).map (fun i => (i + 1, 200)),
         (pages.map (fun p => p.filter isRun)).flatten) := by
  unfold fetchAllRunsPages
  rw [fetchPages_spec pages 1 h]
  simp only [Prod.mk.injEq]
  refine ⟨?_, trivial⟩
  apply List.map_congr_left
  intro i _
  simp only [Prod.mk.injEq, and_true]
  omega

/-- Witness for C5: a two-page server, second page containing no Run. -/
theorem C5_pagination_witness :
    fetchAllRunsPages ([[actRun1], [actRide]] ++ [[]])
      = ((List.range ([[actRun1], [actRide]].length + 1)).map (fun i => (i + 1, 200)),
         ([[actRun1], [actRide]].map (fun p => p.filter isRun)).flatten) :=
  C5_pagination [[actRun1], [actRide]] (by
    intro p hp
    simp only [List.mem_cons, List.not_mem_nil, or_false] at hp
    rcases hp with h | h <;> subst h <;> simp)

/-! ## C6: the half-open date window -/

/-- C6.  The date filter converts each activity timestamp to the
reference zone before comparison, so that it depends only on the absolute
instant (timestamps carrying different source offsets but denoting the
same instant are classified identically); the window is half-open: a
start time equal to the window start is included and one equal to the
window end is excluded. -/
theorem C6_half_open_window (zone zoneWall : Int → Int) (startWall : Int)
    (hz : zoneWall (startWall + 86400) - zoneWall startWall < 86400) :
    (∀ t u : Timestamp, t.instant = u.instant →
      inWindow zone (mainWindow zoneWall startWall) t
        = inWindow zone (mainWindow zoneWall startWall) u) ∧
    (∀ t : Timestamp,
      t.instant = (mainWindow zoneWall startWall).startDt.instant →
      inWindow zone (mainWindow zoneWall startWall) t = true) ∧
    (∀ t : Timestamp,
      t.instant = (mainWindow zoneWall startWall).endDt.instant →
      inWindow zone (mainWindow zoneWall startWall) t = false) := by
  have hiw : ∀ t : Timestamp,
      inWindow zone (mainWindow zoneWall startWall) t
        = (decide ((mainWindow zoneWall startWall).startDt.instant ≤ t.instant)
           && decide (t.instant < (mainWindow zoneWall startWall).endDt.instant)) := by
    intro t
    simp [inWindow]
  refine ⟨?_, ?_, ?_⟩
  · intro t u h
    rw [hiw, hiw, h]
  · intro t h
    rw [hiw, h]
    simp [mainWindow, Timestamp.instant]
    omega
  · intro t h
    rw [hiw, h]
    simp

/-- Witness for C6: offset-insensitivity and both boundaries, on the
day window at instant 0 in a zero-offset zone. -/
theorem C6_half_open_window_witness :
    (inWindow zone0 (mainWindow zone0 0) ⟨200, 150⟩
      = inWindow zone0 (mainWindow zone0 0) ⟨100, 50⟩) ∧
    inWindow zone0 (mainWindow zone0 0) ⟨0, 0⟩ = true ∧
    inWindow zone0 (mainWindow zone0 0) ⟨86400, 0⟩ = false :=
  have h := C6_half_open_window zone0 zone0 0 (by norm_num [zone0])
  ⟨h.1 ⟨200, 150⟩ ⟨100, 50⟩ (by rfl), h.2.1 ⟨0, 0⟩ (by rfl),
   h.2.2 ⟨86400, 0⟩ (by rfl)⟩

/-- C7 (as amended).  A successful backfill pass emits exactly: each
summary with a truthy `id` that already has `start_date_local` and an
athlete dict containing an id, unchanged and with no detail fetch issued;
each other truthy-id summary's fetched detail, the activity being dropped
(with a diagnostic counted) when the fetch 404s, the run continuing; and
summaries without a truthy `id` are dropped without any fetch. -/
theorem C7_backfill_repair (d : Nat → DetailResp) :
    ∀ (acts : List Activity) (res : BackfillRes), backfill d acts = .ok res →
      res.detailed = acts.filterMap (passOf d) ∧
      res.fetched = acts.filterMap fetchOf ∧
      res.skipped404 = ((acts.filterMap fetchOf).filter
          (fun i => isNotFound (d i))).length := by
  intro acts
  induction acts with
  | nil =>
    intro res h
    simp only [backfill, Except.ok.injEq] at h
    subst h
    simp
  | cons a rest ih =>
    intro res h
    cases hid : a.actId with
    | none =>
      simp only [backfill, hid] at h
      have := ih res h
      simp [List.filterMap_cons, passOf, fetchOf, hid, this.1, this.2.1, this.2.2]
    | some i =>
      by_cases hz : i = 0
      · subst hz
        simp only [backfill, hid, if_pos rfl] at h
        have := ih res h
        simp [List.filterMap_cons, passOf, fetchOf, hid, this.1, this.2.1, this.2.2]
      · by_cases hcpl : complete a
        · simp only [backfill, hid, if_neg hz, if_pos hcpl] at h
          cases hbr : backfill d rest with
          | error e => rw [hbr] at h; cases h
          | ok res2 =>
            rw [hbr] at h
            simp only [Except.ok.injEq] at h
            subst h
            have := ih res2 hbr
            simp [List.filterMap_cons, passOf, fetchOf, hid, hz, hcpl,
              this.1, this.2.1, this.2.2]
        · simp only [backfill, hid, if_neg hz, if_neg hcpl] at h
          cases hd : d i with
          | notFound =>
            rw [hd] at h
            cases hbr : backfill d rest with
            | error e => rw [hbr] at h; cases h
            | ok res2 =>
              rw [hbr] at h
              simp only [Except.ok.injEq] at h
              subst h
              have := ih res2 hbr
              simp [List.filterMap_cons, passOf, fetchOf, isNotFound, hid, hz,
                hcpl, hd, this.1, this.2.1, this.2.2]
          | httpErr code => rw [hd] at h; cases h
          | ok det =>
            rw [hd] at h
            cases hbr : backfill d rest with
            | error e => rw [hbr] at h; cases h
            | ok res2 =>
              rw [hbr] at h
              simp only [Except.ok.injEq] at h
              subst h
              have := ih res2 hbr
              simp [List.filterMap_cons, passOf, fetchOf, isNotFound, hid, hz,
                hcpl, hd, this.1, this.2.1, this.2.2]

/-- Counterexample to C7 as stated: an activity that already has
`start_date_local` and a dict athlete containing an id is nevertheless
dropped (not passed through) when its own `id` is missing — the falsy-id
check runs first. -/
theorem C7_counterexample :
    complete actNoId = true ∧ backfill dNF [actNoId] = .ok ⟨[], [], 0⟩ :=
  ⟨rfl, rfl⟩

/-- Witness for C7 (amended): one pass-through and one 404-drop. -/
theorem C7_backfill_repair_witness :
    (⟨[actGood], [5], 1⟩ : BackfillRes).detailed
        = [actGood, actPartial].filterMap (passOf dNF) ∧
    (⟨[actGood], [5], 1⟩ : BackfillRes).fetched
        = [actGood, actPartial].filterMap fetchOf ∧
    (⟨[actGood], [5], 1⟩ : BackfillRes).skipped404
        = (([actGood, actPartial].filterMap fetchOf).filter
            (fun i => isNotFound (dNF i))).length :=
  C7_backfill_repair dNF [actGood, actPartial] ⟨[actGood], [5], 1⟩ (by rfl)

/-! ## C8: empty-result short circuit -/

/-- C8.  If the aggregation produces zero groups (and likewise when no
runs were fetched at all), `main` returns before the destination phase:
no table-creation and no row-write call is issued. -/
theorem C8_empty_short_circuit (zone zoneWall : Int → Int) (startWall : Int)
    (oracle : Op → Bool) (dateStr : String) (runs : List Activity)
    (h : lbAggregate zone (mainWindow zoneWall startWall) runs = .ok []) :
    mainModel zone zoneWall startWall oracle dateStr runs = .ok [] := by
  by_cases hr : runs.isEmpty
  · simp [mainModel, hr]
  · simp [mainModel, hr, h]

/-- Witness for C8: one fetched run, none in the window, no destination
call. -/
theorem C8_empty_short_circuit_witness :
    mainModel zone0 zone0 0 (fun _ => true) "d" [actOut] = .ok [] :=
  C8_empty_short_circuit zone0 zone0 0 (fun _ => true) "d" [actOut] (by rfl)

/-! ## C10: the two time formatters -/

/-- C10.  The two time-format implementations agree on every duration
below one day and diverge at 86400 s and above: `format_hhmmss` renders
the full hour count while the `strftime`-over-`gmtime` variant wraps the
hours modulo 24; at 90000 s they render "25:00:00" and "01:00:00"
respectively. -/
theorem C10_time_format_divergence :
    (∀ s : Nat, s < 86400 → format_hhmmss s = appTimeFormat s) ∧
    (∀ s : Nat, 86400 ≤ s → format_hhmmss s ≠ appTimeFormat s) ∧
    format_hhmmss 90000 = "25:00:00" ∧ appTimeFormat 90000 = "01:00:00" :=
  ⟨format_agree_below, format_diverge_above, format_90000, appTimeFormat_90000⟩

/-- Witness for C10: agreement at 86399 s, divergence at 86400 s. -/
theorem C10_time_format_divergence_witness :
    format_hhmmss 86399 = appTimeFormat 86399 ∧
    format_hhmmss 86400 ≠ appTimeFormat 86400 :=
  ⟨C10_time_format_divergence.1 86399 (by norm_num),
   C10_time_format_divergence.2.1 86400 (by norm_num)⟩

end Strava
